import Mathlib

/-!
Shallow embedding of the token-gated download service:
  src/api/store-token.js  (token issuance)
  src/api/download.js     (token redemption and signed-URL redirect)
  src/api/verify-email.js (email validation against a domain allowlist)
Strings are modelled as Lean `String`, operating on their character lists;
timestamps are natural numbers (milliseconds since the epoch, as in JS
`Date.now()`).  The MongoDB collections are modelled as lists of records
in natural (insertion) order: `findOne` returns the first match and
`deleteOne` removes the first match, as MongoDB does for unindexed
natural-order scans.
-/

namespace Edoc

/-! ### JavaScript string primitives used by the source -/

/-- Membership in the character class `\s` of the source regex, restricted
to the ASCII whitespace characters (the only ones the claims exercise). -/
def jsIsSpace (c : Char) : Bool :=
  c = ' ' || c = '\t' || c = '\n' || c = '\r' || c.toNat = 11 || c.toNat = 12

/-- JS `String.prototype.split` with a single-character separator:
`"a@@b".split("@") = ["a","","b"]`, `"".split("@") = [""]`. -/
def splitOnChar (sep : Char) : List Char → List (List Char)
  | [] => [[]]
  | c :: rest =>
    let r := splitOnChar sep rest
    if c = sep then [] :: r
    else
      match r with
      | [] => [[c]]
      | g :: gs => (c :: g) :: gs

/-- JS `String.prototype.toLowerCase`, on the basic-latin range exercised by
the source (ASCII letters); `Char.toLower` is exactly this mapping. -/
def jsToLower (s : String) : String :=
  ⟨s.data.map Char.toLower⟩

/-- Boolean prefix test on character lists. -/
def isPref : List Char → List Char → Bool
  | [], _ => true
  | _ :: _, [] => false
  | p :: ps, c :: cs => p == c && isPref ps cs

/-- Locate the first occurrence of `pat` in a list, returning the parts
before and after it, or `none` when `pat` does not occur. -/
def listSplitFirst (pat : List Char) : List Char → Option (List Char × List Char)
  | [] => if pat.isEmpty then some ([], []) else none
  | c :: cs =>
    if isPref pat (c :: cs) then some ([], (c :: cs).drop pat.length)
    else
      match listSplitFirst pat cs with
      | none => none
      | some (b, a) => some (c :: b, a)

/-- GetSubstitution from the ECMAScript specification, for a string (not
regex) search value: in the replacement string, `$$` yields `$`, `$&` the
matched substring, a dollar before backtick the part before the match, a
dollar before a quote the part after the match; anything else is literal
(there are no capture groups for a string search). -/
def jsGetSubstitution (matched before after : List Char) : List Char → List Char
  | [] => []
  | c :: rest =>
    if c = '$' then
      match rest with
      | [] => [c]
      | c2 :: rest2 =>
        if c2 = '$' then '$' :: jsGetSubstitution matched before after rest2
        else if c2 = '&' then matched ++ jsGetSubstitution matched before after rest2
        else if c2 = Char.ofNat 96 then before ++ jsGetSubstitution matched before after rest2
        else if c2 = Char.ofNat 39 then after ++ jsGetSubstitution matched before after rest2
        else '$' :: c2 :: jsGetSubstitution matched before after rest2
    else c :: jsGetSubstitution matched before after rest

/-- JS `String.prototype.replace` with string search value and string
replacement: replaces the first occurrence only, feeding the replacement
through GetSubstitution ($-sequence interpretation). -/
def jsReplace (s searchValue replacement : String) : String :=
  match listSplitFirst searchValue.data s.data with
  | none => s
  | some (b, a) => ⟨b ++ jsGetSubstitution searchValue.data b a replacement.data ++ a⟩

/-- JS `String.prototype.padStart(n, c)` with a single-character pad. -/
def jsPadStart (s : String) (n : Nat) (c : Char) : String :=
  if n ≤ s.length then s else ⟨List.replicate (n - s.length) c ++ s.data⟩

/-- Decimal digit list of a natural number, most significant first, with
explicit recursion fuel (the fuel argument only makes the structural
recursion evident; `jsNatDigits` supplies enough for any input). -/
def jsNatDigitsAux : Nat → Nat → List Char
  | 0, _ => []
  | fuel + 1, n =>
    if n < 10 then [Nat.digitChar n]
    else jsNatDigitsAux fuel (n / 10) ++ [Nat.digitChar (n % 10)]

/-- Decimal digit list of a natural number, most significant first; this is
JS `Number.prototype.toString()` for the non-negative integers the source
produces. -/
def jsNatDigits (n : Nat) : List Char :=
  jsNatDigitsAux (n + 1) n

/-- JS `Number.prototype.toString()` on a non-negative integer. -/
def jsNatToString (n : Nat) : String :=
  ⟨jsNatDigits n⟩

/-- JS `x || d` for an optional string `x`: `none` and the empty string are
falsy and give `d`. -/
def jsOr (x : Option String) (d : String) : String :=
  match x with
  | none => d
  | some v => if v = "" then d else v

/-- Domain part of the source regex `[^\s@]+\.[^\s@]+`: the list has a dot
at some position other than the first and the last. -/
def hasInnerDot : List Char → Bool
  | [] => false
  | _ :: rest => rest.dropLast.contains '.'

/-- Test of the source regex `^[^\s@]+@[^\s@]+\.[^\s@]+$` (verify-email.js):
exactly one `@`, a nonempty whitespace-free local part, and a
whitespace-free domain part with an inner dot. -/
def emailRegexTest (e : String) : Bool :=
  match splitOnChar '@' e.data with
  | [l, d] =>
    !l.isEmpty && l.all (fun c => !jsIsSpace c) && d.all (fun c => !jsIsSpace c)
      && hasInnerDot d
  | _ => false

/-! ### verify-email.js : domain extraction and redirect resolution -/

/-- Source `getDomainFromEmail` (verify-email.js): `email.split("@")[1]`
lowercased.  The index access is total here via a default, taken only
after the regex test has ensured a second component exists. -/
def getDomainFromEmail (email : String) : String :=
  jsToLower ⟨(splitOnChar '@' email.data).getD 1 []⟩

/-- Source `generateCleanDomainFromEmail` (verify-email.js): the
second-to-last dot-separated label of the lowercased domain when there is
more than one label, otherwise the whole domain. -/
def generateCleanDomainFromEmail (email : String) : String :=
  let domain := (getDomainFromEmail email).data
  let domainParts := splitOnChar '.' domain
  ⟨if domainParts.length > 1 then domainParts.getD (domainParts.length - 2) []
    else domainParts.getD 0 []⟩

/-- Source `generateRedirectUrl` (verify-email.js), parametrised by the
configured template (env `REDIRECT_URL`): replaces the first occurrence of
the domain placeholder by the clean domain, then the first occurrence of
the email placeholder by the email, via JS `String.replace`. -/
def generateRedirectUrl (template : String) (email : String) : String :=
  jsReplace (jsReplace template "\x7bdomain\x7d" (generateCleanDomainFromEmail email))
    "\x7bemail\x7d" email

/-- Source `isDomainAllowed` (verify-email.js): `findOne` on the allowed
domains collection keyed by the lowercased domain; the try/catch returns
`false` on any storage error.  The storage access is a parameter: `.ok`
carries the allowlist contents, `.error` models a thrown storage error. -/
def isDomainAllowed (domain : String) (store : Except Unit (List String)) : Bool :=
  match store with
  | .error _ => false
  | .ok doms => doms.contains (jsToLower domain)

/-! ### Data model of the system state -/

/-- A record of the `tokens` collection (store-token.js / download.js). -/
structure TokenRec where
  token : String
  createdAt : Nat
  expireAt : Nat
deriving DecidableEq, Repr

/-- A record of the `emails` collection (verify-email.js `logEmail`). -/
structure EmailEntry where
  email : String
  timestamp : Nat
  userAgent : String
  ip : String
  domain : String
deriving DecidableEq, Repr

/-- Combined persistent state: the `tokens` collection of `downloads_db`
and the `emails` and `allowed_domains` collections of the
email-verification database. -/
structure SysState where
  tokens : List TokenRec
  emails : List EmailEntry
  domains : List String
deriving DecidableEq, Repr

/-! ### store-token.js -/

/-- Responses of the store-token handler: 400 for a missing token
parameter, 204 on success. -/
inductive IssueResp
  | missingToken
  | noContent
deriving DecidableEq, Repr

/-- Handler of store-token.js: a falsy `req.query.token` gives 400;
otherwise a record with `createdAt = now` and
`expireAt = now + 60 * 1000` (milliseconds) is inserted. -/
def storeTokenHandler (tokens : List TokenRec) (tokenQ : Option String) (now : Nat) :
    IssueResp × List TokenRec :=
  match tokenQ with
  | none => (.missingToken, tokens)
  | some t =>
    if t = "" then (.missingToken, tokens)
    else (.noContent, tokens ++ [⟨t, now, now + 60 * 1000⟩])

/-- The MongoDB TTL monitor for the index
`createIndex({expireAt: 1}, {expireAfterSeconds: 0})`: a sweep at time
`now` removes every record whose `expireAt` has passed.  The monitor runs
periodically (best-effort timing), so between sweeps expired records are
still physically present. -/
def ttlSweep (now : Nat) (tokens : List TokenRec) : List TokenRec :=
  tokens.filter (fun r => decide (now < r.expireAt))

/-! ### download.js -/

/-- MongoDB `findOne({ token })` on the tokens collection: first match in
natural order. -/
def findOne (tokens : List TokenRec) (t : String) : Option TokenRec :=
  tokens.find? (fun r => r.token == t)

/-- MongoDB `deleteOne({ token })` on the tokens collection: removes the
first match in natural order, when one exists. -/
def deleteOne : List TokenRec → String → List TokenRec
  | [], _ => []
  | r :: rs, t => if r.token == t then rs else r :: deleteOne rs t

/-- The presigned `GetObjectCommand` request the handler has `getSignedUrl`
sign; the `Location` header of the 302 response is the signed form of
exactly this data. -/
structure SignedReq where
  key : String
  responseContentDisposition : String
  expiresIn : Nat
deriving DecidableEq, Repr

/-- Source filename construction (download.js): the fixed prefix, a
4-digit zero-padded random suffix and the fixed extension. -/
def mkFileName (rand : Nat) : String :=
  "Acrobat_Reader_V112_" ++ jsPadStart (jsNatToString rand) 4 '0' ++ ".msi"

/-- Decidable test for the client-visible filename pattern of the
specification: the fixed prefix, an underscore, four decimal digits and
the fixed extension (`Acrobat_Reader_V112_NNNN.msi`). -/
def fileNamePattern (s : String) : Bool :=
  (s.data.take 20 == "Acrobat_Reader_V112_".data) &&
  (s.data.drop 20).length == 8 &&
  ((s.data.drop 20).take 4).all Char.isDigit &&
  ((s.data.drop 20).drop 4 == ".msi".data)

/-- The signed request built by download.js for random draw `rand`
(`rand = Math.floor(Math.random() * 10000)`): the fixed object key, the
content disposition carrying the generated filename, 60 seconds of
validity. -/
def mkSignedReq (rand : Nat) : SignedReq :=
  { key := "Acrobat_Reader_V112.msi"
    responseContentDisposition :=
      "attachment; filename=\"" ++ mkFileName rand ++ "\""
    expiresIn := 60 }

/-- Responses of the download handler: 400 for a missing token parameter,
403 for an unknown token, 302 with a signed `Location` on success. -/
inductive DownloadResp
  | missingToken
  | invalidToken
  | redirect (location : SignedReq)
deriving DecidableEq, Repr

/-- HTTP status code of a download-handler response. -/
def downloadStatus : DownloadResp → Nat
  | .missingToken => 400
  | .invalidToken => 403
  | .redirect _ => 302

/-- Handler of download.js, sequential semantics: a falsy token parameter
gives 400; `findOne({token})` failing gives 403; otherwise
`deleteOne({token})` runs and the handler redirects to the signed URL.
Note the handler reads no clock: `expireAt` is never consulted. -/
def downloadHandler (tokens : List TokenRec) (tokenQ : Option String) (rand : Nat) :
    DownloadResp × List TokenRec :=
  match tokenQ with
  | none => (.missingToken, tokens)
  | some t =>
    if t = "" then (.missingToken, tokens)
    else
      match findOne tokens t with
      | none => (.invalidToken, tokens)
      | some _ => (.redirect (mkSignedReq rand), deleteOne tokens t)

/-! ### Interleaving model of concurrent redemptions

download.js performs `findOne` and `deleteOne` as two separate store
operations; each of the two is individually atomic at the store.  A
consumer is therefore a two-step program, and two concurrent redemption
requests are an interleaving of their steps. -/

/-- Phase of one redemption request: before the find, after a successful
find (delete still pending), responded 403, responded 302. -/
inductive ConsumerPhase
  | start
  | foundRec (r : TokenRec)
  | notFound
  | consumed
deriving DecidableEq, Repr

/-- One atomic step of a redemption request for token `t`: from `start`,
the `findOne`; from `foundRec`, the `deleteOne` followed by the 302
response (the handler ignores the delete count). -/
def consumerStep (t : String) (p : ConsumerPhase) (tokens : List TokenRec) :
    ConsumerPhase × List TokenRec :=
  match p with
  | .start =>
    match findOne tokens t with
    | none => (.notFound, tokens)
    | some r => (.foundRec r, tokens)
  | .foundRec _ => (.consumed, deleteOne tokens t)
  | p => (p, tokens)

/-- Two redemption requests `a` and `b` racing on the same store. -/
structure RaceState where
  a : ConsumerPhase
  b : ConsumerPhase
  tokens : List TokenRec
deriving DecidableEq, Repr

/-- Scheduler step: `true` runs one step of request `a`, `false` one step
of request `b`. -/
def raceStep (t : String) (st : RaceState) (pick : Bool) : RaceState :=
  if pick then
    let (a, tk) := consumerStep t st.a st.tokens
    { st with a := a, tokens := tk }
  else
    let (b, tk) := consumerStep t st.b st.tokens
    { st with b := b, tokens := tk }

/-- Run a schedule of interleaved steps of the two racing requests. -/
def runRace (t : String) (sched : List Bool) (st : RaceState) : RaceState :=
  sched.foldl (raceStep t) st

/-! ### verify-email.js : validation flow -/

/-- Responses of the email-validation branch of verify-email.js:
400 for a missing email, 400 for a format failure, 400 with the generic
work-email message on domain rejection, 200 with the redirect URL on
acceptance. -/
inductive VerifyResp
  | missingEmail
  | invalidFormat
  | domainRejected
  | success (redirectUrl : String)
deriving DecidableEq, Repr

/-- A store operation issued by the validation branch, in program order:
the insert into the `emails` collection attempted by `logEmail`, and the
`findOne` on `allowed_domains` performed by `isDomainAllowed`. -/
inductive StoreEff
  | emailInsert (entry : EmailEntry)
  | domainLookup (domain : String)
deriving DecidableEq, Repr

/-- Validation branch of the verify-email.js handler (`POST` without an
admin action).  `logOk` is the outcome of the `logEmail` insert (its
try/catch swallows a failure and the handler ignores the returned flag);
`domErr` models the allowed-domains `findOne` throwing, which
`isDomainAllowed` turns into `false`.  The returned effect list is the
sequence of store operations in program order. -/
def verifyHandler (template : String) (s : SysState) (body ua ip : Option String)
    (now : Nat) (logOk : Bool) (domErr : Bool) :
    VerifyResp × SysState × List StoreEff :=
  match body with
  | none => (.missingEmail, s, [])
  | some email =>
    if email = "" then (.missingEmail, s, [])
    else if !emailRegexTest email then (.invalidFormat, s, [])
    else
      let entry : EmailEntry :=
        { email := email
          timestamp := now
          userAgent := jsOr ua "Unknown"
          ip := jsOr ip "Unknown"
          domain := getDomainFromEmail email }
      let s1 := if logOk then { s with emails := s.emails ++ [entry] } else s
      let domain := getDomainFromEmail email
      let allowed := isDomainAllowed domain (if domErr then .error () else .ok s.domains)
      let effs := [StoreEff.emailInsert entry, StoreEff.domainLookup domain]
      if !allowed then (.domainRejected, s1, effs)
      else (.success (generateRedirectUrl template email), s1, effs)

/-! ### End-to-end traces over the three endpoints -/

/-- An external request to one of the three endpoints. -/
inductive Act
  | issue (tokenQ : Option String) (now : Nat)
  | verify (body ua ip : Option String) (now : Nat) (logOk domErr : Bool)
  | download (tokenQ : Option String) (rand : Nat)
deriving DecidableEq, Repr

/-- The response produced for a request. -/
inductive Out
  | issued (r : IssueResp)
  | verified (r : VerifyResp)
  | downloaded (r : DownloadResp)
deriving DecidableEq, Repr

/-- Execute one request against the system state. -/
def runAct (template : String) (s : SysState) : Act → SysState × Out
  | .issue tokenQ now =>
    let (r, tk) := storeTokenHandler s.tokens tokenQ now
    ({ s with tokens := tk }, .issued r)
  | .verify body ua ip now logOk domErr =>
    let (r, s2, _) := verifyHandler template s body ua ip now logOk domErr
    (s2, .verified r)
  | .download tokenQ rand =>
    let (r, tk) := downloadHandler s.tokens tokenQ rand
    ({ s with tokens := tk }, .downloaded r)

/-- Execute a sequence of requests, collecting the responses. -/
def runTrace (template : String) : SysState → List Act → SysState × List Out
  | s, [] => (s, [])
  | s, a :: rest =>
    let (s1, o) := runAct template s a
    let (s2, os) := runTrace template s1 rest
    (s2, o :: os)

/-- Whether a request is an email-validation request. -/
def isVerifyAct : Act → Bool
  | .verify .. => true
  | _ => false

/-- Template used for the concrete scenarios: the shape of the testable
property in the specification. -/
def tmplEx : String := "https://\x7bdomain\x7d.example.net/x?e=\x7bemail\x7d"

/-- Literal first-occurrence string replacement, modelled from the words
of the specification (placeholder substitution is literal string
replacement, first occurrence only); to be compared with the JS
`String.replace` semantics of the source. -/
def specLiteralReplace (s pat repl : String) : String :=
  match listSplitFirst pat.data s.data with
  | none => s
  | some (b, a) => ⟨b ++ repl.data ++ a⟩

/-! ### Helper lemmas -/

/-- Packing a small scalar value and unpacking it round-trips. -/
theorem charOfNat_toNat {m : Nat} (h : m < 55296) : (Char.ofNat m).toNat = m := by
  have hv : m.isValidChar := Or.inl h
  simp [Char.ofNat, hv, Char.ofNatAux, Char.toNat, UInt32.toNat, BitVec.ofNatLt]

/-- ASCII lowercasing of a character is idempotent. -/
theorem charToLower_idem (c : Char) : c.toLower.toLower = c.toLower := by
  simp only [Char.toLower]
  by_cases h : c.toNat ≥ 65 ∧ c.toNat ≤ 90
  · rw [if_pos h]
    have hv : (Char.ofNat (c.toNat + 32)).toNat = c.toNat + 32 :=
      charOfNat_toNat (by omega)
    rw [hv, if_neg (by omega)]
  · rw [if_neg h, if_neg h]

/-- Lowercasing a string is idempotent. -/
theorem jsToLower_idem (s : String) : jsToLower (jsToLower s) = jsToLower s := by
  unfold jsToLower
  refine congrArg String.mk ?_
  rw [List.map_map]
  exact List.map_congr_left fun c _ => charToLower_idem c

/-- Digit characters produced for values below ten satisfy `isDigit`. -/
theorem digitChar_isDigit : ∀ m < 10, (Nat.digitChar m).isDigit = true := by decide

/-- Every character of a rendered decimal number is a digit. -/
theorem jsNatDigitsAux_all_digit (fuel : Nat) :
    ∀ n, (jsNatDigitsAux fuel n).all Char.isDigit = true := by
  induction fuel with
  | zero => intro n; rfl
  | succ fuel ih =>
    intro n
    unfold jsNatDigitsAux
    by_cases h : n < 10
    · simp [h, digitChar_isDigit n h]
    · simp [h, ih (n / 10), digitChar_isDigit (n % 10) (Nat.mod_lt n (by omega))]

/-- A rendered decimal number with positive fuel is nonempty. -/
theorem jsNatDigitsAux_len_pos (fuel n : Nat) (h : 1 ≤ fuel) :
    1 ≤ (jsNatDigitsAux fuel n).length := by
  cases fuel with
  | zero => omega
  | succ fuel =>
    unfold jsNatDigitsAux
    by_cases h10 : n < 10 <;> simp [h10]

/-- A number below `10 ^ k` renders to at most `k` digits. -/
theorem jsNatDigitsAux_len_le (fuel : Nat) :
    ∀ k n, n < 10 ^ k → 1 ≤ k → (jsNatDigitsAux fuel n).length ≤ k := by
  induction fuel with
  | zero => intro k n _ _; simp [jsNatDigitsAux]
  | succ fuel ih =>
    intro k n hn hk
    unfold jsNatDigitsAux
    by_cases h10 : n < 10
    · simpa [h10] using hk
    · have hk2 : 2 ≤ k := by
        by_contra hc
        have hk1 : k = 1 := by omega
        subst hk1
        simp [pow_one] at hn
        omega
      have hdiv : n / 10 < 10 ^ (k - 1) := by
        rw [Nat.div_lt_iff_lt_mul (by norm_num)]
        calc n < 10 ^ k := hn
          _ = 10 ^ (k - 1) * 10 := by
            rw [← pow_succ]
            congr 1
            omega
      have := ih (k - 1) (n / 10) hdiv (by omega)
      simp only [h10, if_false, List.length_append, List.length_cons, List.length_nil]
      omega

/-- The padded random suffix of `download.js` has exactly four characters,
all digits, whenever the random draw is below 10000. -/
theorem suffix_shape (rand : Nat) (h : rand < 10000) :
    (jsPadStart (jsNatToString rand) 4 '0').data.length = 4 ∧
    (jsPadStart (jsNatToString rand) 4 '0').data.all Char.isDigit = true := by
  have hlen4 : (jsNatDigits rand).length ≤ 4 := by
    have : rand < 10 ^ 4 := by norm_num; omega
    exact jsNatDigitsAux_len_le (rand + 1) 4 rand this (by omega)
  have hlen1 : 1 ≤ (jsNatDigits rand).length :=
    jsNatDigitsAux_len_pos (rand + 1) rand (by omega)
  have hall : (jsNatDigits rand).all Char.isDigit = true :=
    jsNatDigitsAux_all_digit (rand + 1) rand
  have hrep : ∀ m, (List.replicate m '0').all Char.isDigit = true := by
    intro m
    rw [List.all_eq_true]
    intro c hc
    rw [List.eq_of_mem_replicate hc]
    decide
  unfold jsPadStart jsNatToString
  have hslen : (String.mk (jsNatDigits rand)).length = (jsNatDigits rand).length := rfl
  by_cases h4 : 4 ≤ (String.mk (jsNatDigits rand)).length
  · rw [if_pos h4]
    rw [hslen] at h4
    exact ⟨by simpa using le_antisymm hlen4 h4, hall⟩
  · rw [if_neg h4]
    rw [hslen] at h4
    constructor
    · simp only [List.length_append, List.length_replicate]
      omega
    · simp [List.all_append, hrep, hall]

/-- The generated filename matches the fixed-prefix / 4-digit /
extension pattern whenever the random draw is below 10000. -/
theorem fileNamePattern_mkFileName (rand : Nat) (h : rand < 10000) :
    fileNamePattern (mkFileName rand) = true := by
  obtain ⟨hlen, hall⟩ := suffix_shape rand h
  unfold fileNamePattern mkFileName
  have hdata :
      ("Acrobat_Reader_V112_" ++ jsPadStart (jsNatToString rand) 4 '0' ++ ".msi").data =
        "Acrobat_Reader_V112_".data ++
          ((jsPadStart (jsNatToString rand) 4 '0').data ++ ".msi".data) := by
    simp [String.data_append]
  rw [hdata]
  have hpre : ("Acrobat_Reader_V112_".data).length = 20 := rfl
  rw [List.take_left' hpre, List.drop_left' hpre]
  simp only [List.length_append, hlen, List.take_left' hlen, List.drop_left' hlen, hall]
  simp

/-- If at most one record carries token `t`, deleting one match leaves no
record with that token. -/
theorem findOne_deleteOne (tokens : List TokenRec) (t : String)
    (hcount : tokens.countP (fun r => r.token == t) ≤ 1)
    (r : TokenRec) (hf : findOne tokens t = some r) :
    findOne (deleteOne tokens t) t = none := by
  induction tokens with
  | nil => simp [findOne] at hf
  | cons r0 rs ih =>
    by_cases h0 : (r0.token == t) = true
    · unfold deleteOne
      rw [if_pos h0]
      have hzero : rs.countP (fun r => r.token == t) = 0 := by
        rw [@List.countP_cons_of_pos TokenRec (fun r => r.token == t) r0 rs h0] at hcount
        omega
      unfold findOne
      rw [List.find?_eq_none]
      intro x hx
      exact (List.countP_eq_zero.mp hzero) x hx
    · have h0f : (r0.token == t) = false := by simpa using h0
      unfold deleteOne
      rw [if_neg h0]
      unfold findOne at hf ⊢
      rw [List.find?_cons, h0f] at hf
      rw [List.find?_cons, h0f]
      rw [@List.countP_cons_of_neg TokenRec (fun r => r.token == t) r0 rs h0] at hcount
      exact ih hcount hf

/-- After a TTL sweep at a time past every matching record's expiry, the
token is gone from the store. -/
theorem findOne_ttlSweep (tokens : List TokenRec) (t : String) (now : Nat)
    (h : ∀ r ∈ tokens, r.token = t → r.expireAt ≤ now) :
    findOne (ttlSweep now tokens) t = none := by
  unfold findOne ttlSweep
  rw [List.find?_eq_none]
  intro x hx hbeq
  have hmem := List.mem_filter.mp hx
  have hx_t : x.token = t := by simpa using hbeq
  have h1 := h x hmem.1 hx_t
  have h2 : now < x.expireAt := of_decide_eq_true hmem.2
  omega

/-- A just-inserted token record is found by `findOne`. -/
theorem findOne_append_self (tokens : List TokenRec) (v : String) (c e : Nat) :
    ∃ r, findOne (tokens ++ [⟨v, c, e⟩]) v = some r := by
  unfold findOne
  rw [List.find?_append]
  cases hf : tokens.find? (fun r => r.token == v) with
  | some r => exact ⟨r, by simp⟩
  | none => exact ⟨⟨v, c, e⟩, by simp⟩

/-- A replacement string without a dollar character passes through
GetSubstitution unchanged. -/
theorem jsGetSubstitution_no_dollar (matched before after : List Char) :
    ∀ repl : List Char, '$' ∉ repl →
    jsGetSubstitution matched before after repl = repl := by
  intro repl
  induction repl with
  | nil => intro _; rfl
  | cons c rest ih =>
    intro h
    have hc : ¬(c = '$') := by
      intro hceq
      exact h (hceq ▸ List.mem_cons_self c rest)
    have hrest : '$' ∉ rest := fun hm => h (List.mem_cons_of_mem c hm)
    unfold jsGetSubstitution
    rw [if_neg hc]
    rw [ih hrest]

/-- With a dollar-free replacement, JS `String.replace` coincides with the
literal replacement described by the specification. -/
theorem jsReplace_literal (s pat repl : String) (h : '$' ∉ repl.data) :
    jsReplace s pat repl = specLiteralReplace s pat repl := by
  unfold jsReplace specLiteralReplace
  cases hsplit : listSplitFirst pat.data s.data with
  | none => rfl
  | some ba =>
    cases ba with
    | mk b a => simp [jsGetSubstitution_no_dollar pat.data b a repl.data h]

/-- Email validation touches neither the token store nor the allowlist:
the tokens and domains components survive any validation request. -/
theorem verifyHandler_frame (template : String) (s : SysState) (body ua ip : Option String)
    (now : Nat) (logOk domErr : Bool) :
    ((verifyHandler template s body ua ip now logOk domErr).2.1).tokens = s.tokens ∧
    ((verifyHandler template s body ua ip now logOk domErr).2.1).domains = s.domains := by
  unfold verifyHandler
  cases body with
  | none => exact ⟨rfl, rfl⟩
  | some email =>
    by_cases h1 : email = "" <;> by_cases h2 : emailRegexTest email <;>
      by_cases h3 : logOk <;> by_cases h5 : domErr <;>
      by_cases h4 : jsToLower (getDomainFromEmail email) ∈ s.domains <;>
      simp [h1, h2, h3, h5, h4, isDomainAllowed]

/-- Response of the validation branch on a format-valid email with a
healthy allowlist store: success with the resolved redirect if the domain
is allowed, rejection otherwise. -/
theorem verifyHandler_resp_eval (template : String) (s : SysState) (e : String)
    (ua ip : Option String) (now : Nat) (logOk : Bool)
    (he : emailRegexTest e = true) :
    (verifyHandler template s (some e) ua ip now logOk false).1 =
      (if isDomainAllowed (getDomainFromEmail e) (Except.ok s.domains) then
        VerifyResp.success (generateRedirectUrl template e)
      else VerifyResp.domainRejected) := by
  have hne : e ≠ "" := by
    rintro rfl
    exact absurd he (by decide)
  unfold verifyHandler
  by_cases h4 : jsToLower (getDomainFromEmail e) ∈ s.domains <;>
    simp [hne, he, h4, isDomainAllowed]

/-! ### Claim theorems -/

/-- C1: the source performs `findOne` and then a separate `deleteOne`, so
consumption is not a single atomic find-and-delete.  Evaluating the code
at the failing input: token `abc123` is issued once, then two concurrent
redemption requests interleave as find, find, delete, delete — and both
requests finish in the consumed (302) state, a double spend.  The claim
requires exactly one `Consumed` and one `NotFound`. -/
theorem consume_race_double_spend :
    (runRace "abc123" [true, false, true, false]
        ⟨.start, .start, (storeTokenHandler [] (some "abc123") 0).2⟩).a =
      ConsumerPhase.consumed ∧
    (runRace "abc123" [true, false, true, false]
        ⟨.start, .start, (storeTokenHandler [] (some "abc123") 0).2⟩).b =
      ConsumerPhase.consumed := by decide

/-- C2: sequentially, consumption is destructive and idempotent to
failure.  When the store holds at most one record for the token value and
a redemption succeeds (302), any subsequent redemption of the same value
answers 403 invalid-or-expired. -/
theorem consume_second_attempt_fails (tokens : List TokenRec) (t : String)
    (rand rand2 : Nat)
    (hcount : tokens.countP (fun r => r.token == t) ≤ 1)
    (hok : downloadStatus (downloadHandler tokens (some t) rand).1 = 302) :
    (downloadHandler (downloadHandler tokens (some t) rand).2 (some t) rand2).1 =
      DownloadResp.invalidToken ∧
    downloadStatus
      (downloadHandler (downloadHandler tokens (some t) rand).2 (some t) rand2).1 = 403 := by
  by_cases ht : t = ""
  · simp [downloadHandler, ht, downloadStatus] at hok
  · cases hf : findOne tokens t with
    | none => simp [downloadHandler, ht, hf, downloadStatus] at hok
    | some r =>
      have hnone := findOne_deleteOne tokens t hcount r hf
      simp [downloadHandler, ht, hf, hnone, downloadStatus]

/-- C2 witness: a concrete store with one record for `abc123`; the first
redemption succeeds and the second fails with 403. -/
theorem consume_second_attempt_fails_witness :
    (downloadHandler
        (downloadHandler [⟨"abc123", 0, 60000⟩] (some "abc123") 5).2
        (some "abc123") 6).1 = DownloadResp.invalidToken ∧
    downloadStatus
      (downloadHandler
          (downloadHandler [⟨"abc123", 0, 60000⟩] (some "abc123") 5).2
          (some "abc123") 6).1 = 403 :=
  consume_second_attempt_fails [⟨"abc123", 0, 60000⟩] "abc123" 5 6
    (by decide) (by decide)

/-- C3 counterexample: the download handler never reads a clock and never
consults `expireAt`; a token issued at time 0 expires at 60000 ms, yet at
any later time, as long as the TTL sweep has not physically removed the
record, redemption still answers 302, not the 403 the claim requires. -/
theorem consume_after_expiry_still_succeeds :
    let tokens := (storeTokenHandler [] (some "abc123") 0).2
    tokens.all (fun r => decide (r.expireAt < 120000)) = true ∧
    downloadStatus (downloadHandler tokens (some "abc123") 5).1 = 302 ∧
    (downloadHandler tokens (some "abc123") 5).1 ≠ DownloadResp.invalidToken := by
  decide

/-- C3 amended: a consume attempt after `expireAt` is rejected only once
the background TTL sweep has physically removed the record; the consume
check tests record presence only.  After a sweep at a time past the
expiry of every record carrying the token, redemption answers 403. -/
theorem consume_after_sweep_rejected (tokens : List TokenRec) (t : String)
    (now rand : Nat) (ht : t ≠ "")
    (hexp : ∀ r ∈ tokens, r.token = t → r.expireAt ≤ now) :
    (downloadHandler (ttlSweep now tokens) (some t) rand).1 =
      DownloadResp.invalidToken ∧
    downloadStatus (downloadHandler (ttlSweep now tokens) (some t) rand).1 = 403 := by
  have hnone := findOne_ttlSweep tokens t now hexp
  simp [downloadHandler, ht, hnone, downloadStatus]

/-- C3 amended witness: the expired `abc123` record is reaped by a sweep
at 120000 ms and redemption then answers 403. -/
theorem consume_after_sweep_rejected_witness :
    (downloadHandler (ttlSweep 120000 [⟨"abc123", 0, 60000⟩]) (some "abc123") 5).1 =
      DownloadResp.invalidToken ∧
    downloadStatus
      (downloadHandler (ttlSweep 120000 [⟨"abc123", 0, 60000⟩]) (some "abc123") 5).1 = 403 :=
  consume_after_sweep_rejected [⟨"abc123", 0, 60000⟩] "abc123" 120000 5
    (by decide) (by decide)

/-- C4 counterexample: a trace consisting solely of issuing token
`abc123` and then redeeming it — it contains no email-validation request
at all — consumes the token (the final store is empty and the download
response is the 302 redirect).  The claim that a token is never consumed
without a prior accepted email validation is therefore false of the
code. -/
theorem token_consumed_without_email_validation :
    let acts := [Act.issue (some "abc123") 0, Act.download (some "abc123") 7]
    let res := runTrace tmplEx ⟨[], [], []⟩ acts
    acts.all (fun a => !isVerifyAct a) = true ∧
    res.2 = [.issued .noContent, .downloaded (.redirect (mkSignedReq 7))] ∧
    res.1.tokens = [] := by decide

/-- C4 amended: the server enforces no ordering between email validation
and token consumption.  The email-validation endpoint never touches the
token store, and the download endpoint consumes any live token on the
strength of its presence alone — immediately after issuance, with no
validation in between, redemption already succeeds. -/
theorem consume_independent_of_validation :
    (∀ (template : String) (s : SysState) (body ua ip : Option String)
        (now : Nat) (logOk domErr : Bool),
      ((verifyHandler template s body ua ip now logOk domErr).2.1).tokens = s.tokens) ∧
    (∀ (s : SysState) (v : String) (now rand : Nat), v ≠ "" →
      (downloadHandler (storeTokenHandler s.tokens (some v) now).2 (some v) rand).1 =
        DownloadResp.redirect (mkSignedReq rand)) := by
  constructor
  · intro template s body ua ip now logOk domErr
    exact (verifyHandler_frame template s body ua ip now logOk domErr).1
  · intro s v now rand hv
    obtain ⟨r, hr⟩ := findOne_append_self s.tokens v now (now + 60 * 1000)
    simp [storeTokenHandler, downloadHandler, hv, hr]

/-- C4 amended witness: concrete instances of both conjuncts — a
validation request leaves a one-token store untouched, and issuing
`abc123` into an empty store followed directly by redemption yields the
302 redirect. -/
theorem consume_independent_of_validation_witness :
    ((verifyHandler tmplEx ⟨[⟨"abc123", 0, 60000⟩], [], []⟩ (some "a@b.co")
        none none 0 true false).2.1).tokens = [⟨"abc123", 0, 60000⟩] ∧
    (downloadHandler (storeTokenHandler [] (some "abc123") 0).2 (some "abc123") 7).1 =
      DownloadResp.redirect (mkSignedReq 7) :=
  ⟨consume_independent_of_validation.1 tmplEx ⟨[⟨"abc123", 0, 60000⟩], [], []⟩
      (some "a@b.co") none none 0 true false,
    consume_independent_of_validation.2 ⟨[], [], []⟩ "abc123" 0 7 (by decide)⟩

/-- C5 counterexample: JS `String.replace` interprets dollar sequences in
the replacement string, so substitution of the email is not verbatim.
The format-valid email `u$&v@x.co` contains `$&`, which `replace` expands
to the matched placeholder, producing `u{email}v@x.co` in the resolved
URL instead of the literal email. -/
theorem redirect_substitution_not_verbatim :
    emailRegexTest "u$&v@x.co" = true ∧
    generateRedirectUrl tmplEx "u$&v@x.co" =
      "https://x.example.net/x?e=u\x7bemail\x7dv@x.co" ∧
    generateRedirectUrl tmplEx "u$&v@x.co" ≠
      "https://x.example.net/x?e=u$&v@x.co" := by decide

/-- C5 amended: redirect resolution substitutes the base label for the
domain placeholder and the email for the email placeholder via JS
first-occurrence `String.replace`, which interprets dollar sequences in
the replacement; whenever neither inserted string contains a dollar the
substitution is the literal splice the claim describes, and the concrete
example of the claim holds as stated. -/
theorem redirect_substitution_literal_when_dollar_free :
    (∀ (template email : String),
      Char.ofNat 36 ∉ (generateCleanDomainFromEmail email).data →
      Char.ofNat 36 ∉ email.data →
      generateRedirectUrl template email =
        specLiteralReplace
          (specLiteralReplace template "\x7bdomain\x7d" (generateCleanDomainFromEmail email))
          "\x7bemail\x7d" email) ∧
    generateRedirectUrl tmplEx "user@mail.acme.co" =
      "https://acme.example.net/x?e=user@mail.acme.co" := by
  constructor
  · intro template email hdom hemail
    unfold generateRedirectUrl
    rw [jsReplace_literal template "\x7bdomain\x7d" (generateCleanDomainFromEmail email)
        (by simpa using hdom)]
    exact jsReplace_literal _ "\x7bemail\x7d" email (by simpa using hemail)
  · decide

/-- C5 amended witness: the dollar-free hypotheses hold for the claim
example and the resolution equals the literal splice there. -/
theorem redirect_substitution_literal_when_dollar_free_witness :
    generateRedirectUrl tmplEx "user@mail.acme.co" =
      specLiteralReplace
        (specLiteralReplace tmplEx "\x7bdomain\x7d"
          (generateCleanDomainFromEmail "user@mail.acme.co"))
        "\x7bemail\x7d" "user@mail.acme.co" :=
  redirect_substitution_literal_when_dollar_free.1 tmplEx "user@mail.acme.co"
    (by decide) (by decide)

/-- C6: the membership test lowercases its query, so for every domain and
every allowlist it agrees with the test on the lowercased domain; in
particular `Example.COM` and `example.com` give identical results when
`example.com` is in the allowed set. -/
theorem isDomainAllowed_case_insensitive :
    (∀ (d : String) (doms : List String),
      isDomainAllowed d (Except.ok doms) = isDomainAllowed (jsToLower d) (Except.ok doms)) ∧
    isDomainAllowed "Example.COM" (Except.ok ["example.com"]) = true ∧
    isDomainAllowed "example.com" (Except.ok ["example.com"]) = true := by
  refine ⟨fun d doms => ?_, by decide, by decide⟩
  unfold isDomainAllowed
  rw [jsToLower_idem]

/-- C7: the domain gate fails closed — for every domain, a storage error
during the lookup yields `false`, never default-permit. -/
theorem isDomainAllowed_fails_closed :
    ∀ (d : String) (e : Unit), isDomainAllowed d (Except.error e) = false :=
  fun _ _ => rfl

/-- C8: a successful redemption is a 302 whose `Location` is the freshly
signed request for the fixed object key with validity exactly 60 seconds,
and the content-disposition filename is the fixed prefix, an underscore,
a zero-padded 4-digit suffix and the fixed extension. -/
theorem redeem_success_signed_url_shape (tokens : List TokenRec) (t : String)
    (rand : Nat) (ht : t ≠ "") (hfind : findOne tokens t ≠ none)
    (hrand : rand < 10000) :
    (downloadHandler tokens (some t) rand).1 = DownloadResp.redirect (mkSignedReq rand) ∧
    downloadStatus (downloadHandler tokens (some t) rand).1 = 302 ∧
    (mkSignedReq rand).key = "Acrobat_Reader_V112.msi" ∧
    (mkSignedReq rand).expiresIn = 60 ∧
    (mkSignedReq rand).responseContentDisposition =
      "attachment; filename=\"" ++ mkFileName rand ++ "\"" ∧
    fileNamePattern (mkFileName rand) = true := by
  cases hf : findOne tokens t with
  | none => exact absurd hf hfind
  | some r =>
    refine ⟨?_, ?_, rfl, rfl, rfl, fileNamePattern_mkFileName rand hrand⟩ <;>
      simp [downloadHandler, ht, hf, downloadStatus]

/-- C8 witness: redeeming the live token `abc123` with random draw 7
produces the 302 redirect with the signed fixed key, 60-second validity
and pattern-conforming filename. -/
theorem redeem_success_signed_url_shape_witness :
    (downloadHandler [⟨"abc123", 0, 60000⟩] (some "abc123") 7).1 =
      DownloadResp.redirect (mkSignedReq 7) ∧
    downloadStatus (downloadHandler [⟨"abc123", 0, 60000⟩] (some "abc123") 7).1 = 302 ∧
    (mkSignedReq 7).key = "Acrobat_Reader_V112.msi" ∧
    (mkSignedReq 7).expiresIn = 60 ∧
    (mkSignedReq 7).responseContentDisposition =
      "attachment; filename=\"" ++ mkFileName 7 ++ "\"" ∧
    fileNamePattern (mkFileName 7) = true :=
  redeem_success_signed_url_shape [⟨"abc123", 0, 60000⟩] "abc123" 7
    (by decide) (by decide) (by decide)

/-- C9: domain rejection preserves the token.  Two consecutive
validations of a format-valid email whose domain is not allowed both
answer `DomainRejected` and leave the token store exactly as it was; a
subsequent allowed-domain validation succeeds with the resolved redirect,
and redemption of the still-live token answers 302. -/
theorem domain_rejection_preserves_token
    (template : String) (s : SysState) (e e2 t : String) (ua ip : Option String)
    (n1 n2 n3 rand : Nat) (lg1 lg2 lg3 : Bool)
    (he : emailRegexTest e = true)
    (hrej : isDomainAllowed (getDomainFromEmail e) (Except.ok s.domains) = false)
    (he2 : emailRegexTest e2 = true)
    (hacc : isDomainAllowed (getDomainFromEmail e2) (Except.ok s.domains) = true)
    (ht : t ≠ "") (hfind : findOne s.tokens t ≠ none) :
    (verifyHandler template s (some e) ua ip n1 lg1 false).1 =
      VerifyResp.domainRejected ∧
    (verifyHandler template ((verifyHandler template s (some e) ua ip n1 lg1 false).2.1)
        (some e) ua ip n2 lg2 false).1 = VerifyResp.domainRejected ∧
    ((verifyHandler template s (some e) ua ip n1 lg1 false).2.1).tokens = s.tokens ∧
    ((verifyHandler template ((verifyHandler template s (some e) ua ip n1 lg1 false).2.1)
        (some e) ua ip n2 lg2 false).2.1).tokens = s.tokens ∧
    (verifyHandler template
        ((verifyHandler template ((verifyHandler template s (some e) ua ip n1 lg1 false).2.1)
            (some e) ua ip n2 lg2 false).2.1)
        (some e2) ua ip n3 lg3 false).1 =
      VerifyResp.success (generateRedirectUrl template e2) ∧
    downloadStatus
      (downloadHandler
          ((verifyHandler template
              ((verifyHandler template s (some e) ua ip n1 lg1 false).2.1)
              (some e) ua ip n2 lg2 false).2.1).tokens
          (some t) rand).1 = 302 := by
  obtain ⟨htok1, hdom1⟩ := verifyHandler_frame template s (some e) ua ip n1 lg1 false
  obtain ⟨htok2, hdom2⟩ :=
    verifyHandler_frame template ((verifyHandler template s (some e) ua ip n1 lg1 false).2.1)
      (some e) ua ip n2 lg2 false
  have r1 := verifyHandler_resp_eval template s e ua ip n1 lg1 he
  rw [hrej] at r1
  have r2 := verifyHandler_resp_eval template
    ((verifyHandler template s (some e) ua ip n1 lg1 false).2.1) e ua ip n2 lg2 he
  rw [hdom1, hrej] at r2
  have r3 := verifyHandler_resp_eval template
    ((verifyHandler template ((verifyHandler template s (some e) ua ip n1 lg1 false).2.1)
        (some e) ua ip n2 lg2 false).2.1) e2 ua ip n3 lg3 he2
  rw [hdom2, hdom1, hacc] at r3
  cases hf : findOne s.tokens t with
  | none => exact absurd hf hfind
  | some r =>
    refine ⟨by simpa using r1, by simpa using r2, htok1, by rw [htok2, htok1],
      by simpa using r3, ?_⟩
    rw [htok2, htok1]
    simp [downloadHandler, ht, hf, downloadStatus]

/-- C9 witness: with allowlist `[acme.co]` and a live token `abc123`,
validating `u@bad.example` twice rejects twice and preserves the token;
`u@acme.co` then succeeds and the token still redeems with 302. -/
theorem domain_rejection_preserves_token_witness :
    (verifyHandler tmplEx ⟨[⟨"abc123", 0, 60000⟩], [], ["acme.co"]⟩
        (some "u@bad.example") none none 1 true false).1 =
      VerifyResp.domainRejected ∧
    (verifyHandler tmplEx
        ((verifyHandler tmplEx ⟨[⟨"abc123", 0, 60000⟩], [], ["acme.co"]⟩
            (some "u@bad.example") none none 1 true false).2.1)
        (some "u@bad.example") none none 2 true false).1 = VerifyResp.domainRejected ∧
    ((verifyHandler tmplEx ⟨[⟨"abc123", 0, 60000⟩], [], ["acme.co"]⟩
        (some "u@bad.example") none none 1 true false).2.1).tokens =
      [⟨"abc123", 0, 60000⟩] ∧
    ((verifyHandler tmplEx
        ((verifyHandler tmplEx ⟨[⟨"abc123", 0, 60000⟩], [], ["acme.co"]⟩
            (some "u@bad.example") none none 1 true false).2.1)
        (some "u@bad.example") none none 2 true false).2.1).tokens =
      [⟨"abc123", 0, 60000⟩] ∧
    (verifyHandler tmplEx
        ((verifyHandler tmplEx
            ((verifyHandler tmplEx ⟨[⟨"abc123", 0, 60000⟩], [], ["acme.co"]⟩
                (some "u@bad.example") none none 1 true false).2.1)
            (some "u@bad.example") none none 2 true false).2.1)
        (some "u@acme.co") none none 3 true false).1 =
      VerifyResp.success (generateRedirectUrl tmplEx "u@acme.co") ∧
    downloadStatus
      (downloadHandler
          ((verifyHandler tmplEx
              ((verifyHandler tmplEx ⟨[⟨"abc123", 0, 60000⟩], [], ["acme.co"]⟩
                  (some "u@bad.example") none none 1 true false).2.1)
              (some "u@bad.example") none none 2 true false).2.1).tokens
          (some "abc123") 5).1 = 302 :=
  domain_rejection_preserves_token tmplEx ⟨[⟨"abc123", 0, 60000⟩], [], ["acme.co"]⟩
    "u@bad.example" "u@acme.co" "abc123" none none 1 2 3 5 true true true
    (by decide) (by decide) (by decide) (by decide) (by decide) (by decide)

/-- C10: every format-valid email is logged — the validation branch
issues the `emails` insert (with timestamp, user agent, IP and extracted
domain) strictly before the allowlist lookup, whether or not the domain
is later rejected and whether or not the store is failing; a missing or
format-invalid email issues no store operation and leaves the log
untouched; and the outcome of the log insert does not change the
response. -/
theorem email_logged_before_domain_check
    (template : String) (s : SysState) (e : String) (ua ip : Option String)
    (now : Nat) (lg de : Bool) :
    (emailRegexTest e = true →
      (verifyHandler template s (some e) ua ip now lg de).2.2 =
        [StoreEff.emailInsert
            ⟨e, now, jsOr ua "Unknown", jsOr ip "Unknown", getDomainFromEmail e⟩,
          StoreEff.domainLookup (getDomainFromEmail e)] ∧
      (verifyHandler template s (some e) ua ip now true de).1 =
        (verifyHandler template s (some e) ua ip now false de).1) ∧
    (emailRegexTest e = false →
      (verifyHandler template s (some e) ua ip now lg de).2.2 = [] ∧
      ((verifyHandler template s (some e) ua ip now lg de).2.1).emails = s.emails) ∧
    ((verifyHandler template s none ua ip now lg de).2.2 = [] ∧
     ((verifyHandler template s none ua ip now lg de).2.1).emails = s.emails) := by
  refine ⟨fun he => ⟨?_, ?_⟩, fun hinv => ?_, ⟨rfl, rfl⟩⟩
  · have hne : e ≠ "" := by
      rintro rfl
      exact absurd he (by decide)
    by_cases h5 : de <;> by_cases h4 : jsToLower (getDomainFromEmail e) ∈ s.domains <;>
      simp [verifyHandler, hne, he, h5, h4, isDomainAllowed]
  · have hne : e ≠ "" := by
      rintro rfl
      exact absurd he (by decide)
    by_cases h5 : de <;> by_cases h4 : jsToLower (getDomainFromEmail e) ∈ s.domains <;>
      simp [verifyHandler, hne, he, h5, h4, isDomainAllowed]
  · by_cases h1 : e = "" <;> simp [verifyHandler, h1, hinv]

/-- C10 witness: concrete instances — the rejected-domain email
`u@bad.example` is logged before the allowlist lookup even though the
store has no domains, and a format-invalid email issues no store
operation. -/
theorem email_logged_before_domain_check_witness :
    (verifyHandler tmplEx ⟨[], [], []⟩ (some "u@bad.example") none none 9 true false).2.2 =
      [StoreEff.emailInsert ⟨"u@bad.example", 9, "Unknown", "Unknown", "bad.example"⟩,
        StoreEff.domainLookup "bad.example"] ∧
    (verifyHandler tmplEx ⟨[], [], []⟩ (some "not-an-email") none none 9 true false).2.2 = [] :=
  ⟨((email_logged_before_domain_check tmplEx ⟨[], [], []⟩ "u@bad.example"
      none none 9 true false).1 (by decide)).1,
    ((email_logged_before_domain_check tmplEx ⟨[], [], []⟩ "not-an-email"
      none none 9 true false).2.1 (by decide)).1⟩

end Edoc
